import Mathlib

/-!
# Shallow embedding of `src/my_arc.rs` (`MyArc` / `MyWeak`)

This file embeds the atomically reference-counted shared-ownership
primitive of `src/my_arc.rs` as a sequential state machine over one
control block (`InnerArc`), and settles the specification's claims about
it.

Modelling conventions:
* The two `AtomicUsize` counters are `Nat` values reduced modulo `2 ^ 64`
  (`W`): `fetch_add(1, _)` becomes `(n + 1) % W` and `fetch_sub(1, _)`
  becomes `(n + (W - 1)) % W`, exactly the wrapping arithmetic of a
  64-bit `usize`.  Memory-ordering annotations (`Relaxed` / `Release` /
  `AcqRel` / fences) have no effect on sequential execution and are
  recorded only in comments.
* Besides the control-block fields (`inner`), the state carries ghost
  observation fields that the Rust program manipulates through side
  effects: the number of currently live strong and weak handles
  (`liveStrong` / `liveWeak`), how many times the payload's destructor
  has run (`payloadDrops`), how many times the control block's
  allocation was handed back to the allocator (`frees`), and whether the
  block is still allocated (`allocated`).
* Every occurrence of `drop(Box::from_raw(self.ptr.as_ptr()))` in the
  source both runs the payload's destructor (dropping the `InnerArc`
  drops its `value` field) and frees the allocation; it is modelled by
  `freeBox`, which bumps `payloadDrops` and `frees` and clears
  `allocated`.  The counter fields are kept readable afterwards because
  the source itself keeps reading them (`inner.weak.fetch_sub` after the
  first `Box::from_raw` in `Drop for MyArc`).
* `MyArc::try_unwrap`'s `Box::from_raw` moves the payload out before the
  box is freed, so it bumps `frees` but not `payloadDrops`.
-/

namespace MyArcModel

/-- Modulus of a 64-bit `usize` (the numeral is `2 ^ 64`): counters wrap
modulo `W`. -/
def W : Nat := 18446744073709551616

/-- Largest value a 64-bit `usize` can hold. -/
def usizeMax : Nat := W - 1

/-- `fetch_add(1, _)` on an `AtomicUsize`: wrapping increment. -/
def wrapInc (n : Nat) : Nat := (n + 1) % W

/-- `fetch_sub(1, _)` on an `AtomicUsize`: wrapping decrement of a
`usize` value (an atomic counter always holds a value below `W`): 0
wraps to `W - 1`, any other value goes down by one.  `wrapDec_is_mod`
below proves this agrees with `(n + (W - 1)) % W` on every `n < W`. -/
def wrapDec (n : Nat) : Nat := if n = 0 then W - 1 else n - 1

/-- The control block `InnerArc<T>` of `src/my_arc.rs`: the payload and
the two atomic counters. -/
structure InnerArc (α : Type) where
  value : α
  strong : Nat
  weak : Nat

/-- The whole execution state: the control block plus ghost observation
fields (live handle counts, destructor/free event counts, allocation
status). -/
structure ArcState (α : Type) where
  inner : InnerArc α
  liveStrong : Nat
  liveWeak : Nat
  payloadDrops : Nat
  frees : Nat
  allocated : Bool

/-- `InnerArc::new(value)`: both counters seeded at 1 (the weak counter
starts at 1 because the Arc holds a weak reference to itself). -/
def InnerArc.new (v : α) : InnerArc α :=
  { value := v, strong := 1, weak := 1 }

/-- `MyArc::new(value)`: heap-allocates a fresh control block.  One
strong handle is live, no weak handles, nothing dropped or freed yet. -/
def MyArc.new (v : α) : ArcState α :=
  { inner := InnerArc.new v
    liveStrong := 1
    liveWeak := 0
    payloadDrops := 0
    frees := 0
    allocated := true }

/-- `drop(Box::from_raw(ptr))` on the control-block pointer: runs the
payload's destructor (dropping `InnerArc` drops its `value` field) and
returns the allocation to the allocator. -/
def freeBox (s : ArcState α) : ArcState α :=
  { inner := s.inner
    liveStrong := s.liveStrong
    liveWeak := s.liveWeak
    payloadDrops := s.payloadDrops + 1
    frees := s.frees + 1
    allocated := false }

/-- `impl Clone for MyArc` (`src/my_arc.rs:113`): `strong.fetch_add(1,
Relaxed)`, returning a new strong handle aliasing the same block. -/
def MyArc.clone (s : ArcState α) : ArcState α :=
  { inner :=
      { value := s.inner.value
        strong := wrapInc s.inner.strong
        weak := s.inner.weak }
    liveStrong := s.liveStrong + 1
    liveWeak := s.liveWeak
    payloadDrops := s.payloadDrops
    frees := s.frees
    allocated := s.allocated }

/-- `MyArc::downgrade` (`src/my_arc.rs:103`): `weak.fetch_add(1,
Relaxed)`, returning a new weak handle aliasing the same block. -/
def MyArc.downgrade (s : ArcState α) : ArcState α :=
  { inner :=
      { value := s.inner.value
        strong := s.inner.strong
        weak := wrapInc s.inner.weak }
    liveStrong := s.liveStrong
    liveWeak := s.liveWeak + 1
    payloadDrops := s.payloadDrops
    frees := s.frees
    allocated := s.allocated }

/-- `impl Clone for MyWeak` (`src/my_arc.rs:124`): `weak.fetch_add(1,
Relaxed)`, returning a new weak handle. -/
def MyWeak.clone (s : ArcState α) : ArcState α :=
  { inner :=
      { value := s.inner.value
        strong := s.inner.strong
        weak := wrapInc s.inner.weak }
    liveStrong := s.liveStrong
    liveWeak := s.liveWeak + 1
    payloadDrops := s.payloadDrops
    frees := s.frees
    allocated := s.allocated }

/-- The `strong.fetch_sub(1, Release)` of `Drop for MyArc`
(`src/my_arc.rs:157`), together with the dropped handle ceasing to be
live. -/
def decStrongCounter (s : ArcState α) : ArcState α :=
  { inner :=
      { value := s.inner.value
        strong := wrapDec s.inner.strong
        weak := s.inner.weak }
    liveStrong := s.liveStrong - 1
    liveWeak := s.liveWeak
    payloadDrops := s.payloadDrops
    frees := s.frees
    allocated := s.allocated }

/-- The `weak.fetch_sub(1, Release)` of `Drop for MyArc`
(`src/my_arc.rs:167`), releasing the control block's self-reference: no
weak handle is dropped, so `liveWeak` is unchanged. -/
def decWeakSelf (s : ArcState α) : ArcState α :=
  { inner :=
      { value := s.inner.value
        strong := s.inner.strong
        weak := wrapDec s.inner.weak }
    liveStrong := s.liveStrong
    liveWeak := s.liveWeak
    payloadDrops := s.payloadDrops
    frees := s.frees
    allocated := s.allocated }

/-- The `weak.fetch_sub(1, Release)` of `Drop for MyWeak`
(`src/my_arc.rs:137`), together with the dropped weak handle ceasing to
be live. -/
def decWeakHandle (s : ArcState α) : ArcState α :=
  { inner :=
      { value := s.inner.value
        strong := s.inner.strong
        weak := wrapDec s.inner.weak }
    liveStrong := s.liveStrong
    liveWeak := s.liveWeak - 1
    payloadDrops := s.payloadDrops
    frees := s.frees
    allocated := s.allocated }

/-- `impl Drop for MyArc` (`src/my_arc.rs:153`): `strong.fetch_sub(1,
Release)`; if the prior value (here `s.inner.strong`) was not 1, return;
otherwise `drop(Box::from_raw(ptr))` — which destroys the payload AND
frees the block — then `weak.fetch_sub(1, Release)`; if that prior value
(here `s.inner.weak`, unmodified by the steps in between) was 1,
`drop(Box::from_raw(ptr))` a second time.  No acquire fence is issued
between the strong decrement and the first `Box::from_raw`. -/
def MyArc.drop (s : ArcState α) : ArcState α :=
  if s.inner.strong ≠ 1 then decStrongCounter s
  else if s.inner.weak = 1 then
    freeBox (decWeakSelf (freeBox (decStrongCounter s)))
  else decWeakSelf (freeBox (decStrongCounter s))

/-- `impl Drop for MyWeak` (`src/my_arc.rs:133`): `weak.fetch_sub(1,
Release)`; if the prior value (here `s.inner.weak`) was 1, acquire fence
and `drop(Box::from_raw(ptr))`. -/
def MyWeak.drop (s : ArcState α) : ArcState α :=
  if s.inner.weak = 1 then freeBox (decWeakHandle s)
  else decWeakHandle s

/-- `MyArc::get_strong_count` (`src/my_arc.rs:60`): a `SeqCst` load of
the strong counter. -/
def MyArc.get_strong_count (s : ArcState α) : Nat := s.inner.strong

/-- `MyArc::get_weak_count` (`src/my_arc.rs:68`): a `SeqCst` load of the
weak counter. -/
def MyArc.get_weak_count (s : ArcState α) : Nat := s.inner.weak

/-- `MyArc::get_mut_ref` (`src/my_arc.rs:77`): a `SeqCst` load of the
strong counter; `Some(&mut value)` when it reads 1, `None` otherwise.
The function performs no store, so it is a pure observation of the
state. -/
def MyArc.get_mut_ref (s : ArcState α) : Option α :=
  if s.inner.strong = 1 then some s.inner.value else none

/-- `MyArc::try_unwrap` (`src/my_arc.rs:91`): when `get_strong_count()`
reads 1, re-box the control block, move the payload out, free the box,
and `mem::forget(self)` (so the drop path never runs and the consumed
handle stops being live); otherwise return the untouched handle as
`Err(self)`. -/
def MyArc.try_unwrap (s : ArcState α) : Except (ArcState α) (α × ArcState α) :=
  if MyArc.get_strong_count s = 1 then
    Except.ok (s.inner.value,
      { inner := s.inner
        liveStrong := s.liveStrong - 1
        liveWeak := s.liveWeak
        payloadDrops := s.payloadDrops
        frees := s.frees + 1
        allocated := false })
  else
    Except.error s

/-- `MyWeak::upgrade` (`src/my_arc.rs:33`): load the strong counter with
acquire ordering; while it is non-zero, `compare_exchange(loaded,
loaded + 1, AcqRel, Acquire)`.  In sequential execution no interference
can occur, so the first compare-and-swap succeeds whenever the loaded
value is non-zero; a loaded value of zero exits the loop with `None` and
no counter is modified. -/
def MyWeak.upgrade (s : ArcState α) : Option (ArcState α) :=
  if s.inner.strong = 0 then none
  else
    some
      { inner :=
          { value := s.inner.value
            strong := (s.inner.strong + 1) % W
            weak := s.inner.weak }
        liveStrong := s.liveStrong + 1
        liveWeak := s.liveWeak
        payloadDrops := s.payloadDrops
        frees := s.frees
        allocated := s.allocated }

/-- The handle operations that an execution can interleave (all
sequential): strong clone, strong drop, downgrade, weak clone, weak
drop. -/
inductive Op : Type where
  | cloneStrong : Op
  | dropStrong : Op
  | downgradeOp : Op
  | cloneWeak : Op
  | dropWeak : Op

/-- An operation is well-formed at a state when a handle of the needed
kind is live to invoke it on. -/
def okOp (s : ArcState α) : Op → Bool
  | Op.cloneStrong => s.liveStrong != 0
  | Op.dropStrong => s.liveStrong != 0
  | Op.downgradeOp => s.liveStrong != 0
  | Op.cloneWeak => s.liveWeak != 0
  | Op.dropWeak => s.liveWeak != 0

/-- One transition of the state machine. -/
def step (s : ArcState α) : Op → ArcState α
  | Op.cloneStrong => MyArc.clone s
  | Op.dropStrong => MyArc.drop s
  | Op.downgradeOp => MyArc.downgrade s
  | Op.cloneWeak => MyWeak.clone s
  | Op.dropWeak => MyWeak.drop s

/-- Run a sequence of operations from a state. -/
def runFrom (s : ArcState α) : List Op → ArcState α
  | [] => s
  | op :: rest => runFrom (step s op) rest

/-- A sequence is valid from a state when every operation is invoked on
a live handle of the right kind. -/
def validFrom (s : ArcState α) : List Op → Bool
  | [] => true
  | op :: rest => okOp s op && validFrom (step s op) rest

/-- Validity strengthened with the no-overflow side condition: the
number of simultaneously live strong handles stays below `W` after every
step. -/
def validBoundedFrom (s : ArcState α) : List Op → Bool
  | [] => true
  | op :: rest =>
      okOp s op && decide ((step s op).liveStrong < W) &&
        validBoundedFrom (step s op) rest

/-- The value the specification says the weak counter stores: the
number of live weak handles, plus the control block's implicit
self-reference while any strong handle is live. -/
def weakGhost (s : ArcState α) : Nat :=
  s.liveWeak + (if s.liveStrong = 0 then 0 else 1)

/-- The stored strong counter is the live-strong-handle count mod `W`
(an invariant of every valid run, proved below). -/
def StrongInv (s : ArcState α) : Prop :=
  s.inner.strong = s.liveStrong % W

/-- Exact strong tracking plus the weak-counter accounting (an invariant
of every overflow-free valid run, proved below). -/
def FullInv (s : ArcState α) : Prop :=
  s.inner.strong = s.liveStrong ∧ s.liveStrong < W ∧
    s.inner.weak = weakGhost s % W

/-- The bound structure of `unsafe impl<T> Send for MyArc<T>`
(`src/my_arc.rs:176`): the impl is declared for every payload type with
no `T: Send` or `T: Sync` bound, so whether `MyArc<T>` is `Send` does
not depend on `T`.  The two arguments state whether `T` itself is
`Send` / `Sync`. -/
def myArcSend (_tSend _tSync : Bool) : Bool := true

/-- The bound structure of `unsafe impl<T> Sync for MyArc<T>`
(`src/my_arc.rs:177`): likewise declared for every payload type
unconditionally. -/
def myArcSync (_tSend _tSync : Bool) : Bool := true

/-- Modelled from the spec's words, for comparison with `myArcSend`: the
claim says the strong handle is sendable across threads exactly when the
payload type is itself thread-safe (both sharable and sendable, as for
the standard library's Arc). -/
def specMyArcSend (tSend tSync : Bool) : Bool := tSend && tSync

/-- Modelled from the spec's words, for comparison with `myArcSync`:
shareable across threads exactly when the payload type is itself
thread-safe. -/
def specMyArcSync (tSend tSync : Bool) : Bool := tSend && tSync

/-- A control-block state whose two counters both hold the largest
`usize` value (used to exhibit wrap-around of the unguarded
`fetch_add(1)` increments). -/
def maxedBlock : ArcState Nat :=
  { inner := { value := 0, strong := usizeMax, weak := usizeMax }
    liveStrong := 1
    liveWeak := 1
    payloadDrops := 0
    frees := 0
    allocated := true }

/-! ## Arithmetic helpers for the wrapping counters -/

lemma W_pos : 0 < W := by norm_num [W]

lemma one_lt_W : 1 < W := by norm_num [W]

lemma W_eq_two_pow : W = 2 ^ 64 := by norm_num [W]

/-- `wrapDec` is the wrapping subtraction of 1 modulo `W` on `usize`
values. -/
lemma wrapDec_is_mod (n : Nat) (h : n < W) : wrapDec n = (n + (W - 1)) % W := by
  unfold wrapDec
  unfold W at h ⊢
  split <;> omega

lemma wrapInc_mod (a : Nat) : wrapInc (a % W) = (a + 1) % W := by
  unfold wrapInc
  exact Nat.mod_add_mod a W 1

lemma wrapDec_mod (a : Nat) (h : 1 ≤ a) : wrapDec (a % W) = (a - 1) % W := by
  unfold wrapDec W
  split <;> omega

lemma wrapInc_eq (a : Nat) (h : a + 1 < W) : wrapInc a = a + 1 := by
  unfold wrapInc
  exact Nat.mod_eq_of_lt h

lemma wrapDec_eq (a : Nat) (h1 : 1 ≤ a) : wrapDec a = a - 1 := by
  unfold wrapDec
  split <;> omega

/-! ## The strong-counter invariant (modulo `W`)

Along any valid sequence of operations, the stored strong counter equals
the number of live strong handles reduced modulo `W`. -/

lemma strongInv_step (s : ArcState α) (op : Op) (hok : okOp s op = true)
    (h : StrongInv s) : StrongInv (step s op) := by
  unfold StrongInv at h ⊢
  cases op with
  | cloneStrong =>
      simp only [step, MyArc.clone]
      rw [h, wrapInc_mod]
  | dropStrong =>
      simp only [okOp, bne_iff_ne, ne_eq] at hok
      simp only [step, MyArc.drop]
      split
      · simp only [decStrongCounter]
        rw [h, wrapDec_mod s.liveStrong (by omega)]
      · split <;>
          · simp only [decStrongCounter, decWeakSelf, freeBox]
            rw [h, wrapDec_mod s.liveStrong (by omega)]
  | downgradeOp => simpa [step, MyArc.downgrade] using h
  | cloneWeak => simpa [step, MyWeak.clone] using h
  | dropWeak =>
      simp only [step, MyWeak.drop]
      split <;> simpa [decWeakHandle, freeBox] using h

lemma strongInv_runFrom (ops : List Op) (s : ArcState α)
    (hv : validFrom s ops = true) (h : StrongInv s) :
    StrongInv (runFrom s ops) := by
  induction ops generalizing s with
  | nil => simpa [runFrom] using h
  | cons op rest ih =>
      simp only [validFrom, Bool.and_eq_true] at hv
      exact ih (step s op) hv.2 (strongInv_step s op hv.1 h)

/-! ## The full invariant (no strong-counter overflow)

When the number of simultaneously live strong handles stays below `W`,
the stored strong counter tracks it exactly, and the stored weak counter
equals (live weak handles + implicit self reference) modulo `W`. -/

lemma weakGhost_of_pos (s : ArcState α) (h : ¬ s.liveStrong = 0) :
    weakGhost s = s.liveWeak + 1 := by
  unfold weakGhost
  rw [if_neg h]

lemma fullInv_step (s : ArcState α) (op : Op) (hok : okOp s op = true)
    (hb : (step s op).liveStrong < W) (h : FullInv s) : FullInv (step s op) := by
  obtain ⟨h1, h2, h3⟩ := h
  unfold FullInv
  cases op with
  | cloneStrong =>
      simp only [okOp, bne_iff_ne, ne_eq] at hok
      simp only [step, MyArc.clone] at hb ⊢
      refine ⟨?_, hb, ?_⟩
      · rw [h1, wrapInc_eq s.liveStrong hb]
      · rw [weakGhost_of_pos s hok] at h3
        simpa [weakGhost] using h3
  | dropStrong =>
      simp only [okOp, bne_iff_ne, ne_eq] at hok
      simp only [step, MyArc.drop] at hb ⊢
      split
      · rename_i hne
        rw [h1] at hne
        simp only [decStrongCounter] at hb ⊢
        refine ⟨?_, by omega, ?_⟩
        · rw [h1, wrapDec_eq s.liveStrong (by omega)]
        · have hpos : ¬ (s.liveStrong - 1 = 0) := by omega
          rw [weakGhost_of_pos s hok] at h3
          simp only [weakGhost]
          simp only [hpos, if_false]
          exact h3
      · rename_i heq
        rw [not_ne_iff, h1] at heq
        rw [weakGhost_of_pos s hok] at h3
        have hdec : wrapDec s.inner.weak = s.liveWeak % W := by
          rw [h3, wrapDec_mod (s.liveWeak + 1) (by omega)]
          simp
        have hstrong : wrapDec s.inner.strong = 0 := by
          rw [h1, heq]
          rfl
        split <;>
          · simp only [decStrongCounter, decWeakSelf, freeBox] at hb ⊢
            refine ⟨?_, by omega, ?_⟩
            · rw [hstrong]
              omega
            · simpa [weakGhost, heq] using hdec
  | downgradeOp =>
      simp only [okOp, bne_iff_ne, ne_eq] at hok
      simp only [step, MyArc.downgrade] at hb ⊢
      refine ⟨h1, hb, ?_⟩
      rw [weakGhost_of_pos s hok] at h3
      have e : wrapInc s.inner.weak = (s.liveWeak + 1 + 1) % W := by
        rw [h3]
        exact wrapInc_mod (s.liveWeak + 1)
      simpa [weakGhost, hok] using e
  | cloneWeak =>
      simp only [step, MyWeak.clone] at hb ⊢
      refine ⟨h1, hb, ?_⟩
      have e : wrapInc s.inner.weak = (weakGhost s + 1) % W := by
        rw [h3]
        exact wrapInc_mod (weakGhost s)
      unfold weakGhost at e ⊢
      simp only []
      split at e <;> rename_i hz
      · simpa [hz] using e
      · simpa [hz, Nat.add_right_comm] using e
  | dropWeak =>
      simp only [okOp, bne_iff_ne, ne_eq] at hok
      simp only [step, MyWeak.drop] at hb ⊢
      have hg : 1 ≤ weakGhost s := by
        unfold weakGhost at *
        omega
      have hdec : wrapDec s.inner.weak = (weakGhost s - 1) % W := by
        rw [h3]
        exact wrapDec_mod (weakGhost s) hg
      have hgg : weakGhost s - 1 =
          s.liveWeak - 1 + (if s.liveStrong = 0 then 0 else 1) := by
        unfold weakGhost at *
        split <;> omega
      split <;>
        · simp only [decWeakHandle, freeBox] at hb ⊢
          refine ⟨h1, h2, ?_⟩
          rw [hdec, hgg]
          simp [weakGhost]

lemma fullInv_runFrom (ops : List Op) (s : ArcState α)
    (hv : validBoundedFrom s ops = true) (h : FullInv s) :
    FullInv (runFrom s ops) := by
  induction ops generalizing s with
  | nil => simpa [runFrom] using h
  | cons op rest ih =>
      simp only [validBoundedFrom, Bool.and_eq_true, decide_eq_true_eq] at hv
      exact ih (step s op) hv.2 (fullInv_step s op hv.1.1 hv.1.2 h)

lemma fullInv_new (v : α) : FullInv (MyArc.new v) := by
  refine ⟨rfl, one_lt_W, ?_⟩
  simp [MyArc.new, InnerArc.new, weakGhost, Nat.mod_eq_of_lt one_lt_W]

lemma strongInv_new (v : α) : StrongInv (MyArc.new v) := by
  unfold StrongInv
  simp [MyArc.new, InnerArc.new, Nat.mod_eq_of_lt one_lt_W]

/-! ## Closed forms for homogeneous operation sequences -/

lemma replicate_cloneStrong (n : Nat) (s : ArcState α) (h : s.liveStrong ≠ 0) :
    validFrom s (List.replicate n Op.cloneStrong) = true ∧
    (runFrom s (List.replicate n Op.cloneStrong)).liveStrong = s.liveStrong + n := by
  induction n generalizing s with
  | zero => exact ⟨rfl, rfl⟩
  | succ n ih =>
      rw [List.replicate_succ]
      simp only [validFrom, runFrom, Bool.and_eq_true]
      have hstep : (step s Op.cloneStrong).liveStrong = s.liveStrong + 1 := rfl
      obtain ⟨iv, il⟩ := ih (step s Op.cloneStrong) (by rw [hstep]; omega)
      refine ⟨⟨?_, iv⟩, ?_⟩
      · simp only [okOp, bne_iff_ne]
        exact h
      · rw [il, hstep]
        omega

lemma replicate_downgradeOp (n : Nat) (s : ArcState α) (h : s.liveStrong ≠ 0)
    (hb : s.liveStrong < W) :
    validFrom s (List.replicate n Op.downgradeOp) = true ∧
    validBoundedFrom s (List.replicate n Op.downgradeOp) = true ∧
    (runFrom s (List.replicate n Op.downgradeOp)).liveWeak = s.liveWeak + n ∧
    (runFrom s (List.replicate n Op.downgradeOp)).liveStrong = s.liveStrong := by
  induction n generalizing s with
  | zero => exact ⟨rfl, rfl, rfl, rfl⟩
  | succ n ih =>
      rw [List.replicate_succ]
      simp only [validFrom, validBoundedFrom, runFrom, Bool.and_eq_true,
        decide_eq_true_eq]
      have hsl : (step s Op.downgradeOp).liveStrong = s.liveStrong := rfl
      have hsw : (step s Op.downgradeOp).liveWeak = s.liveWeak + 1 := rfl
      obtain ⟨iv, ivb, iw, isl⟩ :=
        ih (step s Op.downgradeOp) (by rw [hsl]; exact h) (by rw [hsl]; exact hb)
      have hokd : okOp s Op.downgradeOp = true := by
        simp only [okOp, bne_iff_ne]
        exact h
      refine ⟨⟨hokd, iv⟩, ⟨⟨hokd, by rw [hsl]; exact hb⟩, ivb⟩, ?_, ?_⟩
      · rw [iw, hsw]
        omega
      · rw [isl, hsl]

/-! ## The claims -/

/-- C1: the claim says the control block is freed at most once per
execution and only by the weak-count 1-to-0 transition.  The code
violates this on the simplest execution: `MyArc::new` followed by
dropping the only strong handle frees the block twice — once at the
strong 1-to-0 transition (`drop(Box::from_raw(..))` at
`src/my_arc.rs:164`) and once more at the weak 1-to-0 transition
(`src/my_arc.rs:170`). -/
theorem drop_last_strong_frees_twice :
    validFrom (MyArc.new (0 : Nat)) [Op.dropStrong] = true ∧
    (runFrom (MyArc.new (0 : Nat)) [Op.dropStrong]).frees = 2 :=
  ⟨rfl, rfl⟩

/-- C2: the claim says the last strong drop destroys only the payload in
place and keeps the control block allocated while weak handles remain
live.  In the code, after `new`, one `downgrade` (one live weak handle)
and the strong drop, the whole control block has been handed back to the
allocator (`allocated = false`, one free) even though one weak handle is
still live. -/
theorem drop_last_strong_deallocates_block :
    validFrom (MyArc.new (0 : Nat)) [Op.downgradeOp, Op.dropStrong] = true ∧
    (runFrom (MyArc.new (0 : Nat)) [Op.downgradeOp, Op.dropStrong]).liveWeak = 1 ∧
    (runFrom (MyArc.new (0 : Nat)) [Op.downgradeOp, Op.dropStrong]).allocated = false ∧
    (runFrom (MyArc.new (0 : Nat)) [Op.downgradeOp, Op.dropStrong]).frees = 1 ∧
    (runFrom (MyArc.new (0 : Nat)) [Op.downgradeOp, Op.dropStrong]).payloadDrops = 1 :=
  ⟨rfl, rfl, rfl, rfl, rfl⟩

/-- C3: `MyWeak::upgrade` returns `None` without modifying anything when
the loaded strong count is zero, and otherwise (the compare-and-swap
succeeding in sequential execution) returns a new strong handle on the
same block with the strong counter incremented by one modulo `W` and
everything else unchanged. -/
theorem upgrade_spec (s : ArcState α) :
    (s.inner.strong = 0 → MyWeak.upgrade s = none) ∧
    (s.inner.strong ≠ 0 →
      ∃ t, MyWeak.upgrade s = some t ∧
        t.inner.strong = (s.inner.strong + 1) % W ∧
        t.inner.weak = s.inner.weak ∧
        t.inner.value = s.inner.value ∧
        t.liveStrong = s.liveStrong + 1 ∧
        t.liveWeak = s.liveWeak ∧
        t.payloadDrops = s.payloadDrops ∧
        t.frees = s.frees ∧
        t.allocated = s.allocated) := by
  constructor
  · intro h
    unfold MyWeak.upgrade
    rw [if_pos h]
  · intro h
    unfold MyWeak.upgrade
    rw [if_neg h]
    exact ⟨_, rfl, rfl, rfl, rfl, rfl, rfl, rfl, rfl, rfl⟩

/-- Witness for C3, at a dead block (strong count 0 after the last
strong drop) and at a fresh one. -/
theorem upgrade_spec_w :
    MyWeak.upgrade (runFrom (MyArc.new (7 : Nat)) [Op.dropStrong]) = none ∧
    ∃ t, MyWeak.upgrade (MyArc.new (7 : Nat)) = some t ∧
      t.inner.strong = ((MyArc.new (7 : Nat)).inner.strong + 1) % W ∧
      t.inner.weak = (MyArc.new (7 : Nat)).inner.weak ∧
      t.inner.value = (MyArc.new (7 : Nat)).inner.value ∧
      t.liveStrong = (MyArc.new (7 : Nat)).liveStrong + 1 ∧
      t.liveWeak = (MyArc.new (7 : Nat)).liveWeak ∧
      t.payloadDrops = (MyArc.new (7 : Nat)).payloadDrops ∧
      t.frees = (MyArc.new (7 : Nat)).frees ∧
      t.allocated = (MyArc.new (7 : Nat)).allocated :=
  ⟨(upgrade_spec (runFrom (MyArc.new (7 : Nat)) [Op.dropStrong])).1 rfl,
   (upgrade_spec (MyArc.new (7 : Nat))).2 (by decide)⟩

/-- C4: `MyArc::try_unwrap` succeeds exactly when the strong counter
reads 1; on success the payload is returned by value without its
destructor running (`payloadDrops` unchanged), the handle is consumed
without its normal drop path (no counter is decremented — `t.inner =
s.inner`), and the control block's storage, implicit self-weak
reference included, is released (`frees + 1`, `allocated = false`); on
failure the original handle is returned with the state unchanged. -/
theorem try_unwrap_spec (s : ArcState α) :
    (s.inner.strong = 1 →
      ∃ t, MyArc.try_unwrap s = Except.ok (s.inner.value, t) ∧
        t.payloadDrops = s.payloadDrops ∧
        t.frees = s.frees + 1 ∧
        t.allocated = false ∧
        t.inner = s.inner ∧
        t.liveStrong = s.liveStrong - 1 ∧
        t.liveWeak = s.liveWeak) ∧
    (s.inner.strong ≠ 1 → MyArc.try_unwrap s = Except.error s) := by
  constructor
  · intro h
    unfold MyArc.try_unwrap MyArc.get_strong_count
    rw [if_pos h]
    exact ⟨_, rfl, rfl, rfl, rfl, rfl, rfl, rfl⟩
  · intro h
    unfold MyArc.try_unwrap MyArc.get_strong_count
    rw [if_neg h]

/-- Witness for C4, at a unique handle (success) and a cloned one
(failure). -/
theorem try_unwrap_spec_w :
    (∃ t, MyArc.try_unwrap (MyArc.new (3 : Nat)) =
        Except.ok ((MyArc.new (3 : Nat)).inner.value, t) ∧
      t.payloadDrops = (MyArc.new (3 : Nat)).payloadDrops ∧
      t.frees = (MyArc.new (3 : Nat)).frees + 1 ∧
      t.allocated = false ∧
      t.inner = (MyArc.new (3 : Nat)).inner ∧
      t.liveStrong = (MyArc.new (3 : Nat)).liveStrong - 1 ∧
      t.liveWeak = (MyArc.new (3 : Nat)).liveWeak) ∧
    MyArc.try_unwrap (MyArc.clone (MyArc.new (3 : Nat))) =
      Except.error (MyArc.clone (MyArc.new (3 : Nat))) :=
  ⟨(try_unwrap_spec (MyArc.new (3 : Nat))).1 rfl,
   (try_unwrap_spec (MyArc.clone (MyArc.new (3 : Nat)))).2 (by decide)⟩

/-- C5: `MyArc::get_mut_ref` yields a mutable reference to the payload
exactly when the (sequentially-consistently loaded) strong counter reads
1, returns the ordinary alternative `none` whenever it reads 2 or more,
and — being a pure load — modifies no counter. -/
theorem get_mut_ref_spec (s : ArcState α) :
    ((MyArc.get_mut_ref s).isSome ↔ s.inner.strong = 1) ∧
    (s.inner.strong = 1 → MyArc.get_mut_ref s = some s.inner.value) ∧
    (2 ≤ s.inner.strong → MyArc.get_mut_ref s = none) := by
  unfold MyArc.get_mut_ref
  refine ⟨?_, ?_, ?_⟩
  · constructor
    · intro h
      by_contra hc
      rw [if_neg hc] at h
      simp at h
    · intro h
      rw [if_pos h]
      rfl
  · intro h
    rw [if_pos h]
  · intro h
    rw [if_neg (by omega)]

/-- Witness for C5, at a unique handle and at a cloned one. -/
theorem get_mut_ref_spec_w :
    ((MyArc.get_mut_ref (MyArc.new (5 : Nat))).isSome ↔
      (MyArc.new (5 : Nat)).inner.strong = 1) ∧
    MyArc.get_mut_ref (MyArc.new (5 : Nat)) =
      some (MyArc.new (5 : Nat)).inner.value ∧
    MyArc.get_mut_ref (MyArc.clone (MyArc.new (5 : Nat))) = none :=
  ⟨(get_mut_ref_spec (MyArc.new (5 : Nat))).1,
   (get_mut_ref_spec (MyArc.new (5 : Nat))).2.1 rfl,
   (get_mut_ref_spec (MyArc.clone (MyArc.new (5 : Nat)))).2.2 (by decide)⟩

/-- C6, counterexample: the claim "the stored strong count always equals
the number of currently-live strong handles" fails on the valid
execution that clones the fresh handle `W` times: the counter has
wrapped to 1 while `W + 1` handles are live. -/
theorem strong_count_claim_cx :
    validFrom (MyArc.new (0 : Nat)) (List.replicate W Op.cloneStrong) = true ∧
    (runFrom (MyArc.new (0 : Nat)) (List.replicate W Op.cloneStrong)).inner.strong ≠
      (runFrom (MyArc.new (0 : Nat)) (List.replicate W Op.cloneStrong)).liveStrong := by
  obtain ⟨hv, hl⟩ :=
    replicate_cloneStrong W (MyArc.new (0 : Nat)) (by decide)
  refine ⟨hv, ?_⟩
  have hs := strongInv_runFrom (List.replicate W Op.cloneStrong)
    (MyArc.new (0 : Nat)) hv (strongInv_new 0)
  unfold StrongInv at hs
  have e1 : (MyArc.new (0 : Nat)).liveStrong = 1 := rfl
  rw [e1] at hl
  rw [hs, hl, Nat.add_mod_right, Nat.mod_eq_of_lt one_lt_W]
  have := W_pos
  omega

/-- C6, amended: along every valid sequence of operations the stored
strong counter equals the live-strong-handle count modulo `2 ^ 64`, and
equals it exactly as long as fewer than `2 ^ 64` strong handles are
simultaneously live. -/
theorem strong_count_eq_live (v : α) (ops : List Op)
    (hv : validFrom (MyArc.new v) ops = true)
    (hb : (runFrom (MyArc.new v) ops).liveStrong < W) :
    (runFrom (MyArc.new v) ops).inner.strong =
      (runFrom (MyArc.new v) ops).liveStrong := by
  have hs := strongInv_runFrom ops (MyArc.new v) hv (strongInv_new v)
  unfold StrongInv at hs
  rw [hs, Nat.mod_eq_of_lt hb]

/-- Witness for the amended C6 at a concrete clone-then-drop run. -/
theorem strong_count_eq_live_w :
    validFrom (MyArc.new (42 : Nat)) [Op.cloneStrong, Op.dropStrong] = true ∧
    (runFrom (MyArc.new (42 : Nat)) [Op.cloneStrong, Op.dropStrong]).liveStrong < W ∧
    (runFrom (MyArc.new (42 : Nat)) [Op.cloneStrong, Op.dropStrong]).inner.strong =
      (runFrom (MyArc.new (42 : Nat)) [Op.cloneStrong, Op.dropStrong]).liveStrong :=
  ⟨by decide, by decide,
   strong_count_eq_live 42 [Op.cloneStrong, Op.dropStrong] (by decide) (by decide)⟩

/-- C7, counterexample: the claim "the stored weak count always equals
live weak handles plus the implicit self reference" fails on the valid
execution that downgrades the fresh handle `W` times: the counter has
wrapped to 1 while the true total is `W + 1`. -/
theorem weak_count_claim_cx :
    validFrom (MyArc.new (0 : Nat)) (List.replicate W Op.downgradeOp) = true ∧
    (runFrom (MyArc.new (0 : Nat)) (List.replicate W Op.downgradeOp)).inner.weak ≠
      weakGhost (runFrom (MyArc.new (0 : Nat)) (List.replicate W Op.downgradeOp)) := by
  obtain ⟨hv, hvb, hw, hsl⟩ :=
    replicate_downgradeOp W (MyArc.new (0 : Nat)) (by decide) one_lt_W
  refine ⟨hv, ?_⟩
  obtain ⟨f1, f2, f3⟩ :=
    fullInv_runFrom (List.replicate W Op.downgradeOp) (MyArc.new (0 : Nat))
      hvb (fullInv_new 0)
  have e0 : (MyArc.new (0 : Nat)).liveWeak = 0 := rfl
  have e1 : (MyArc.new (0 : Nat)).liveStrong = 1 := rfl
  rw [e0] at hw
  rw [e1] at hsl
  have hne : ¬ (runFrom (MyArc.new (0 : Nat))
      (List.replicate W Op.downgradeOp)).liveStrong = 0 := by
    rw [hsl]
    exact Nat.one_ne_zero
  have hg : weakGhost (runFrom (MyArc.new (0 : Nat))
      (List.replicate W Op.downgradeOp)) = W + 1 := by
    rw [weakGhost_of_pos _ hne, hw]
    omega
  rw [f3, hg, Nat.add_mod_left, Nat.mod_eq_of_lt one_lt_W]
  have := W_pos
  omega

/-- C7, amended: along every valid sequence of operations in which fewer
than `2 ^ 64` strong handles are ever simultaneously live, the stored
weak counter equals (number of live weak handles + 1 if any strong
handle is live) modulo `2 ^ 64`, hence equals it exactly while that
total is below `2 ^ 64`. -/
theorem weak_count_eq_ghost (v : α) (ops : List Op)
    (hv : validBoundedFrom (MyArc.new v) ops = true)
    (hg : weakGhost (runFrom (MyArc.new v) ops) < W) :
    (runFrom (MyArc.new v) ops).inner.weak =
      weakGhost (runFrom (MyArc.new v) ops) := by
  obtain ⟨f1, f2, f3⟩ := fullInv_runFrom ops (MyArc.new v) hv (fullInv_new v)
  rw [f3, Nat.mod_eq_of_lt hg]

/-- Witness for the amended C7 at a concrete downgrade run. -/
theorem weak_count_eq_ghost_w :
    validBoundedFrom (MyArc.new (42 : Nat)) [Op.downgradeOp] = true ∧
    weakGhost (runFrom (MyArc.new (42 : Nat)) [Op.downgradeOp]) < W ∧
    (runFrom (MyArc.new (42 : Nat)) [Op.downgradeOp]).inner.weak =
      weakGhost (runFrom (MyArc.new (42 : Nat)) [Op.downgradeOp]) :=
  ⟨by decide, by decide,
   weak_count_eq_ghost 42 [Op.downgradeOp] (by decide) (by decide)⟩

/-- C8, counterexample: the claim says the strong handle is
sendable/shareable across threads exactly when the payload type itself
is; but the source's `unsafe impl`s carry no bound on `T`, so for a
payload type that is neither `Send` nor `Sync` the code still declares
`MyArc<T>` `Send` and `Sync`, disagreeing with the claim. -/
theorem send_sync_claim_cx :
    myArcSend false false ≠ specMyArcSend false false ∧
    myArcSync false false ≠ specMyArcSync false false := by
  constructor <;> decide

/-- C8, amended: the code declares `MyArc<T>` both `Send` and `Sync`
for every payload type `T` unconditionally; it imposes no thread-safety
requirement on `T`. -/
theorem send_sync_unconditional (tSend tSync : Bool) :
    myArcSend tSend tSync = true ∧ myArcSync tSend tSync = true :=
  ⟨rfl, rfl⟩

/-- C9: `MyArc::downgrade` increments the weak counter by exactly one
(modulo the word size) and returns a new weak handle on the same block,
leaving the strong counter, the payload, and every other observable
component unchanged. -/
theorem downgrade_spec (s : ArcState α) :
    (MyArc.downgrade s).inner.weak = (s.inner.weak + 1) % W ∧
    (MyArc.downgrade s).inner.strong = s.inner.strong ∧
    (MyArc.downgrade s).inner.value = s.inner.value ∧
    (MyArc.downgrade s).liveWeak = s.liveWeak + 1 ∧
    (MyArc.downgrade s).liveStrong = s.liveStrong ∧
    (MyArc.downgrade s).payloadDrops = s.payloadDrops ∧
    (MyArc.downgrade s).frees = s.frees ∧
    (MyArc.downgrade s).allocated = s.allocated :=
  ⟨rfl, rfl, rfl, rfl, rfl, rfl, rfl, rfl⟩

/-- C10: none of the three counter increments (strong clone, downgrade,
weak clone) guards against overflow: incrementing a counter that already
holds the largest `usize` value wraps it to 0 instead of aborting. -/
theorem counter_overflow_wraps (s : ArcState α) :
    (s.inner.strong = usizeMax → (MyArc.clone s).inner.strong = 0) ∧
    (s.inner.weak = usizeMax →
      (MyArc.downgrade s).inner.weak = 0 ∧ (MyWeak.clone s).inner.weak = 0) := by
  constructor
  · intro h
    show wrapInc s.inner.strong = 0
    rw [h]
    rfl
  · intro h
    constructor <;>
      · show wrapInc s.inner.weak = 0
        rw [h]
        rfl

/-- Witness for C10 at a block whose counters sit at the maximum. -/
theorem counter_overflow_wraps_w :
    (MyArc.clone maxedBlock).inner.strong = 0 ∧
    (MyArc.downgrade maxedBlock).inner.weak = 0 ∧
    (MyWeak.clone maxedBlock).inner.weak = 0 :=
  ⟨(counter_overflow_wraps maxedBlock).1 rfl,
   (counter_overflow_wraps maxedBlock).2 rfl⟩

end MyArcModel
